import Mathlib

/-!
Shallow embedding of the voicenote core: the recorder's capture buffer
(`src/recorder.py`) and the transcription backends with their segment
assembler (`src/transcriber.py`, dispatch in `src/main.py`).

Python strings are modelled as `List Char`, float timestamps and samples as
`ℚ`, and the ambient globals of `recorder.py` as an explicit state record.
-/

namespace Voicenote

/-- Whitespace as Python's `str.strip` sees it (the ASCII whitespace set). -/
def pyIsSpace (c : Char) : Bool :=
  c = ' ' || c = '\t' || c = '\n' || c = '\r' || c = '\x0b' || c = '\x0c'

/-- Python `str.strip()`: remove leading and trailing whitespace characters. -/
def strip (s : List Char) : List Char :=
  List.rdropWhile pyIsSpace (s.dropWhile pyIsSpace)

/-- One decoded segment, shaped like the faster-whisper / OpenAI verbose
response segments: the assembler reads only `start`, `end` and `text`; the
remaining decoder metadata is carried along untouched. -/
structure Segment where
  id : Int
  seek : Int
  start : ℚ
  «end» : ℚ
  text : List Char
  temperature : ℚ
  avg_logprob : ℚ
  no_speech_prob : ℚ
deriving DecidableEq

/-- `PAUSE_THRESHOLD` from `transcriber.py` line 49: gaps of at least this
many seconds become paragraph breaks. -/
def PAUSE_THRESHOLD : ℚ := 2

/-- One iteration of the segment-joining loop of `transcribe_audio`
(`transcriber.py` lines 53-60).  The state is the pair
`(result_parts, prev_end)`; the Python truthiness test `if result_parts`
is `≠ []`. -/
def assembleStep (st : List (List Char) × ℚ) (segment : Segment) :
    List (List Char) × ℚ :=
  let gap := segment.start - st.2
  let parts :=
    if st.1 ≠ [] ∧ gap ≥ PAUSE_THRESHOLD then st.1 ++ [['\n', '\n']]
    else if st.1 ≠ [] then st.1 ++ [[' ']]
    else st.1
  (parts ++ [ strip segment.text], segment.«end»)

/-- The segment assembler of `transcribe_audio` (`transcriber.py` lines
48-67): fold the loop body over the segments starting from
`result_parts = []`, `prev_end = 0.0`, join the parts and strip the
result. -/
def assemble (segments : List Segment) : List Char :=
  strip (List.flatten (segments.foldl assembleStep ([], 0)).1)

/-- The assembler algorithm as §4.4 of the spec words it: for each segment
the first one gets no separator, later ones get a paragraph break when
`gap ≥ PAUSE_THRESHOLD`, else a single space, each before the segment's
trimmed text. -/
def assembleSpecGo : List Segment → ℚ → Bool → List Char
  | [], _, _ => []
  | segment :: rest, prev_end, first =>
    (if first then []
     else if segment.start - prev_end ≥ PAUSE_THRESHOLD then ['\n', '\n']
     else [' '])
      ++ strip segment.text ++ assembleSpecGo rest segment.«end» false

/-- The spec-worded assembler: run the per-segment rule from
`prev_end = 0.0` and strip the concatenation. -/
def assembleSpec (segments : List Segment) : List Char :=
  strip (assembleSpecGo segments 0 true)

/-- The fields of a segment the assembler is allowed to depend on:
start time, end time and text. -/
def segObs (s : Segment) : ℚ × ℚ × List Char := (s.start, s.«end», s.text)

/-- Strictly increasing, non-overlapping adjacent intervals (§8 of the
spec). -/
def wellOrdered (segments : List Segment) : Prop :=
  List.Chain' (fun a b => a.«end» ≤ b.start ∧ a.start < b.start) segments

instance (segments : List Segment) : Decidable (wellOrdered segments) := by
  unfold wellOrdered; infer_instance

/-- The recorder's module state (`recorder.py` lines 18-20): the
`_is_recording` flag and the `_recording_data` frame list.  A frame is its
list of samples. -/
structure RecState where
  is_recording : Bool
  recording_data : List (List ℚ)
deriving DecidableEq

/-- `_audio_callback` (`recorder.py` lines 57-62): append a copy of the
incoming frame iff the recording flag is set; otherwise the buffer is left
untouched. -/
def audio_callback (st : RecState) (indata : List ℚ) : RecState :=
  if st.is_recording then
    { st with recording_data := st.recording_data ++ [indata] }
  else st

/-- `_signal_handler` (`recorder.py` lines 50-54): clear the recording
flag; nothing else in the state is touched. -/
def signal_handler (st : RecState) : RecState :=
  { st with is_recording := false }

inductive RecError
  | noAudioCaptured
deriving DecidableEq

/-- The drain step of `record_audio` (`recorder.py` lines 124-130): fail
when no frames were captured, else concatenate the frames in arrival order
and flatten. -/
def drain (st : RecState) : Except RecError (List ℚ) :=
  if st.recording_data.length = 0 then Except.error RecError.noAudioCaptured
  else Except.ok st.recording_data.flatten

inductive TransError
  | missingCredential
  | payloadTooLarge
  | serviceError
deriving DecidableEq

/-- A verbose transcription response: the list of decoded segments. -/
structure ApiResponse where
  segments : List Segment
deriving DecidableEq

/-- Python truthiness of `os.environ.get("OPENAI_API_KEY")` at
`transcriber.py` line 87: unset (`None`) or the empty string is falsy. -/
def keyMissing : Option (List Char) → Bool
  | none => true
  | some k => k.isEmpty

/-- `transcribe_audio_openai` (`transcriber.py` lines 74-140): check the
credential, then the 25 MB size ceiling (`st_size / (1024*1024) > 25`),
then issue exactly one transport call and assemble the response segments
with the same joining fold.  The second component records whether the
transport capability was invoked. -/
def transcribe_audio_openai (api_key : Option (List Char)) (size_bytes : ℕ)
    (transport : Except Unit ApiResponse) :
    Except TransError (List Char) × Bool :=
  if keyMissing api_key then (Except.error TransError.missingCredential, false)
  else if ((size_bytes : ℚ) / (1024 * 1024)) > 25 then
    (Except.error TransError.payloadTooLarge, false)
  else
    match transport with
    | Except.error _ => (Except.error TransError.serviceError, true)
    | Except.ok resp => (Except.ok (assemble resp.segments), true)

/-- `transcribe_audio` (`transcriber.py` lines 17-71) as the dispatcher
sees it: the opaque local model yields segments and the same joining fold
assembles them. -/
def transcribe_audio (model_segments : List Segment) : List Char :=
  assemble model_segments

/-- `do_transcription` (`main.py` lines 36-42): dispatch on the configured
mode; `"openai"` selects the Remote-API variant, anything else the
Local-Model variant.  The result carries the outcome, whether the network
transport was invoked, and whether the local model was invoked. -/
def do_transcription (mode : String) (api_key : Option (List Char))
    (size_bytes : ℕ) (transport : Except Unit ApiResponse)
    (model_segments : List Segment) :
    Except TransError (List Char) × Bool × Bool :=
  if mode = "openai" then
    let r := transcribe_audio_openai api_key size_bytes transport
    (r.1, r.2, false)
  else
    (Except.ok (transcribe_audio model_segments), false, true)

theorem mem_dropWhile_of_neg {α : Type} {p : α → Bool} {l : List α} {c : α}
    (hc : c ∈ l) (hp : p c = false) : c ∈ l.dropWhile p := by
  induction l with
  | nil => cases hc
  | cons a t ih =>
    rw [List.dropWhile_cons]
    by_cases ha : p a = true
    · rw [if_pos ha]
      rcases List.mem_cons.mp hc with h | h
      · subst h; simp [hp] at ha
      · exact ih h
    · rw [if_neg ha]; exact hc

theorem mem_strip_of_not_space {l : List Char} {c : Char}
    (hc : c ∈ l) (hp : pyIsSpace c = false) : c ∈ strip l := by
  show c ∈ List.reverse _
  rw [List.mem_reverse]
  exact mem_dropWhile_of_neg (List.mem_reverse.mpr (mem_dropWhile_of_neg hc hp)) hp

theorem strip_eq_nil_iff {l : List Char} :
    strip l = [] ↔ ∀ c ∈ l, pyIsSpace c = true := by
  unfold strip
  rw [List.rdropWhile_eq_nil_iff]
  constructor
  · intro h c hc
    by_cases hp : pyIsSpace c = true
    · exact hp
    · exact absurd (h c (mem_dropWhile_of_neg hc (by simpa using hp))) hp
  · intro h x hx
    exact h x ((List.dropWhile_suffix pyIsSpace).subset hx)

theorem dropWhile_head_false {p : Char → Bool} {l : List Char} {c : Char}
    {t : List Char} (h : l.dropWhile p = c :: t) : p c = false := by
  induction l with
  | nil => simp at h
  | cons a s ih =>
    rw [List.dropWhile_cons] at h
    by_cases ha : p a = true
    · rw [if_pos ha] at h; exact ih h
    · rw [if_neg ha] at h
      injection h with h1 h2
      subst h1
      simpa using ha

theorem head_strip_not_space {l : List Char} {c : Char} {s : List Char}
    (h : strip l = c :: s) : pyIsSpace c = false := by
  obtain ⟨t, ht⟩ := List.rdropWhile_prefix pyIsSpace (l.dropWhile pyIsSpace)
  have hA : l.dropWhile pyIsSpace = c :: (s ++ t) := by
    rw [← ht]
    show strip l ++ t = _
    rw [h]
    rfl
  exact dropWhile_head_false hA

theorem dropWhile_strip (l : List Char) :
    List.dropWhile pyIsSpace (strip l) = strip l := by
  cases h : strip l with
  | nil => rfl
  | cons c s =>
    have hc : pyIsSpace c = false := head_strip_not_space h
    simp [List.dropWhile_cons, hc]

theorem strip_idem (l : List Char) : strip (strip l) = strip l := by
  show List.rdropWhile pyIsSpace (List.dropWhile pyIsSpace (strip l)) = strip l
  rw [dropWhile_strip]
  show List.rdropWhile pyIsSpace
      (List.rdropWhile pyIsSpace (l.dropWhile pyIsSpace)) = _
  rw [List.rdropWhile_idempotent]
  rfl

theorem assembleStep_nil_parts (prev : ℚ) (seg : Segment) :
    assembleStep ([], prev) seg = ([ strip seg.text], seg.«end») := by
  simp [assembleStep]

theorem assembleStep_cons_parts (parts : List (List Char)) (prev : ℚ)
    (seg : Segment) (h : parts ≠ []) :
    assembleStep (parts, prev) seg
      = (parts
          ++ [if seg.start - prev ≥ PAUSE_THRESHOLD then ['\n', '\n'] else [' ']]
          ++ [ strip seg.text], seg.«end») := by
  by_cases hg : seg.start - prev ≥ PAUSE_THRESHOLD
  · simp [assembleStep, h, hg]
  · simp [assembleStep, h, hg]

theorem flatten_foldl_assembleStep (segments : List Segment) :
    ∀ (parts : List (List Char)) (prev : ℚ), parts ≠ [] →
      List.flatten (segments.foldl assembleStep (parts, prev)).1
        = List.flatten parts ++ assembleSpecGo segments prev false := by
  induction segments with
  | nil =>
    intro parts prev _
    simp [assembleSpecGo]
  | cons seg rest ih =>
    intro parts prev h
    rw [List.foldl_cons, assembleStep_cons_parts parts prev seg h,
      ih _ _ (by simp)]
    by_cases hg : seg.start - prev ≥ PAUSE_THRESHOLD
    · simp [assembleSpecGo, hg]
    · simp [assembleSpecGo, hg]

theorem assemble_cons (seg : Segment) (rest : List Segment) :
    assemble (seg :: rest)
      = strip (strip seg.text ++ assembleSpecGo rest seg.«end» false) := by
  unfold assemble
  rw [List.foldl_cons, assembleStep_nil_parts,
    flatten_foldl_assembleStep rest _ _ (by simp)]
  simp

theorem assemble_eq_assembleSpec (segments : List Segment) :
    assemble segments = assembleSpec segments := by
  cases segments with
  | nil => rfl
  | cons seg rest =>
    rw [assemble_cons]
    unfold assembleSpec
    simp [assembleSpecGo]

/-- Claim C1: the assembler is exactly the spec's fold — starting from
`prev_end = 0.0`, a non-first segment whose gap is at least 2.0 seconds is
preceded by two newlines, a non-first segment with a smaller gap by a single
space, the first segment by nothing, and the concatenation is stripped; in
particular the two worked examples of §8 hold. -/
theorem assemble_is_gap_fold :
    (∀ segments : List Segment, assemble segments = assembleSpec segments) ∧
    assemble [⟨0, 0, 0, 1, "hello".toList, 0, 0, 0⟩,
        ⟨1, 0, 1.5, 2, "world".toList, 0, 0, 0⟩] = "hello world".toList ∧
    assemble [⟨0, 0, 0, 1, "hello".toList, 0, 0, 0⟩,
        ⟨1, 0, 4, 5, "world".toList, 0, 0, 0⟩] = "hello\n\nworld".toList :=
  ⟨assemble_eq_assembleSpec, by with_unfolding_all rfl, by with_unfolding_all rfl⟩

/-- Claim C7: assembling the empty segment sequence yields the empty
transcript (and, being a total function, raises no error), and assembling a
single segment yields that segment's trimmed text verbatim. -/
theorem assemble_nil_and_singleton :
    assemble ([] : List Segment) = []
      ∧ ∀ s : Segment, assemble [s] = strip s.text := by
  refine ⟨rfl, fun s => ?_⟩
  rw [assemble_cons]
  show strip (strip s.text ++ []) = strip s.text
  rw [List.append_nil, strip_idem]

/-- Claim C5 counterexample: a single segment whose text is a lone space is a
nonempty segment sequence whose assembled transcript is nonetheless empty, so
the claimed "empty iff no segments" invariant fails on the code. -/
theorem assemble_empty_on_blank_segment :
    assemble [⟨0, 0, 0, 1, " ".toList, 0, 0, 0⟩] = []
      ∧ ([⟨0, 0, 0, 1, " ".toList, 0, 0, 0⟩] : List Segment) ≠ [] :=
  ⟨by with_unfolding_all rfl, by simp⟩

/-- Claim C5 (amended): for segment sequences in which every segment's trimmed
text is nonempty, the assembled transcript is the empty string iff the segment
sequence is empty. -/
theorem assemble_eq_nil_iff (segments : List Segment)
    (h : ∀ s ∈ segments, strip s.text ≠ []) :
    assemble segments = [] ↔ segments = [] := by
  cases segments with
  | nil => exact iff_of_true rfl rfl
  | cons seg rest =>
    constructor
    · intro habs
      exfalso
      rw [assemble_cons] at habs
      have hs : strip seg.text ≠ [] := h seg (by simp)
      have hnot : ¬ ∀ c ∈ seg.text, pyIsSpace c = true :=
        fun hall => hs (strip_eq_nil_iff.mpr hall)
      push_neg at hnot
      obtain ⟨c, hc, hcp⟩ := hnot
      have hcp' : pyIsSpace c = false := by simpa using hcp
      have hmem : c ∈ strip seg.text ++ assembleSpecGo rest seg.«end» false :=
        List.mem_append_left _ (mem_strip_of_not_space hc hcp')
      have htrue := strip_eq_nil_iff.mp habs c hmem
      rw [htrue] at hcp'
      cases hcp'
    · intro habs
      simp at habs

/-- Claim C5 witness: a one-segment sequence with text "hello" satisfies the
nonempty-trimmed-text hypothesis, and its transcript is empty iff the
sequence is, i.e. neither is. -/
theorem assemble_eq_nil_iff_witness :
    (∀ s ∈ ([⟨0, 0, 0, 1, "hello".toList, 0, 0, 0⟩] : List Segment),
        strip s.text ≠ []) ∧
    (assemble [⟨0, 0, 0, 1, "hello".toList, 0, 0, 0⟩] = []
      ↔ ([⟨0, 0, 0, 1, "hello".toList, 0, 0, 0⟩] : List Segment) = []) :=
  ⟨by decide, assemble_eq_nil_iff _ (by decide)⟩

/-- Claim C6: a non-first segment that starts before the previous segment's
end yields a negative gap, necessarily below the 2.0-second pause threshold,
so the loop body appends a single space and the trimmed text — never a
paragraph break — and no error is possible. -/
theorem overlapping_segment_single_space (parts : List (List Char))
    (s1 s2 : Segment) (h1 : parts ≠ []) (h2 : s2.start < s1.«end») :
    s2.start - s1.«end» < 0 ∧ s2.start - s1.«end» < PAUSE_THRESHOLD ∧
    assembleStep (parts, s1.«end») s2
      = (parts ++ [[' '], strip s2.text], s2.«end») := by
  have hneg : s2.start - s1.«end» < 0 := by linarith
  have hlt : s2.start - s1.«end» < PAUSE_THRESHOLD := by
    have : (0 : ℚ) < PAUSE_THRESHOLD := by norm_num [PAUSE_THRESHOLD]
    linarith
  refine ⟨hneg, hlt, ?_⟩
  rw [assembleStep_cons_parts parts s1.«end» s2 h1, if_neg (not_le.mpr hlt)]
  simp

/-- Claim C6 witness: with one part already emitted and a segment starting at
0.5 while the previous segment ended at 1, the step joins with a single
space. -/
theorem overlapping_segment_single_space_witness :
    (([['a']] : List (List Char)) ≠ [] ∧ (0.5 : ℚ) < 1) ∧
    ((0.5 : ℚ) - 1 < 0 ∧ (0.5 : ℚ) - 1 < PAUSE_THRESHOLD ∧
      assembleStep ([['a']], (1 : ℚ)) ⟨1, 0, 0.5, 2, ['b'], 0, 0, 0⟩
        = ([['a']] ++ [[' '], strip ['b']], 2)) :=
  ⟨⟨by simp, by norm_num⟩,
    overlapping_segment_single_space [['a']] ⟨0, 0, 0, 1, ['a'], 0, 0, 0⟩
      ⟨1, 0, 0.5, 2, ['b'], 0, 0, 0⟩ (by simp) (by norm_num)⟩

theorem assembleSpecGo_congr :
    ∀ (l₁ l₂ : List Segment) (prev : ℚ) (first : Bool),
      l₁.map segObs = l₂.map segObs →
      assembleSpecGo l₁ prev first = assembleSpecGo l₂ prev first := by
  intro l₁
  induction l₁ with
  | nil =>
    intro l₂ prev first h
    cases l₂ with
    | nil => rfl
    | cons b t₂ => simp at h
  | cons a t ih =>
    intro l₂ prev first h
    cases l₂ with
    | nil => simp at h
    | cons b t₂ =>
      simp only [List.map_cons, List.cons.injEq] at h
      obtain ⟨hab, ht⟩ := h
      have h1 : a.start = b.start := congrArg (fun x => x.1) hab
      have h2 : a.«end» = b.«end» := congrArg (fun x => x.2.1) hab
      have h3 : a.text = b.text := congrArg (fun x => x.2.2) hab
      have hrec := ih t₂ a.«end» false ht
      simp only [assembleSpecGo]
      rw [h1, h3, hrec, h2]

/-- Claim C8: on nonempty, strictly increasing, non-overlapping segment
sequences the assembler is deterministic and its output depends only on the
segments' start times, end times and texts, in order — two inputs that agree
on those (but may differ in decoder metadata such as ids, seek offsets or
probabilities) assemble identically. -/
theorem assemble_depends_only_on_obs (l₁ l₂ : List Segment) (h0 : l₁ ≠ [])
    (h1 : wellOrdered l₁) (h2 : wellOrdered l₂)
    (h : l₁.map segObs = l₂.map segObs) :
    assemble l₁ = assemble l₂ := by
  rw [assemble_eq_assembleSpec, assemble_eq_assembleSpec]
  unfold assembleSpec
  rw [assembleSpecGo_congr l₁ l₂ 0 true h]

/-- Claim C8 witness: two singleton sequences equal in start, end and text but
differing in every metadata field assemble to the same transcript. -/
theorem assemble_depends_only_on_obs_witness :
    (([⟨0, 0, 0, 1, "hi".toList, 0, 0, 0⟩] : List Segment) ≠ [] ∧
      wellOrdered [⟨0, 0, 0, 1, "hi".toList, 0, 0, 0⟩] ∧
      wellOrdered [⟨7, 3, 0, 1, "hi".toList, 1, 2, 3⟩] ∧
      ([⟨0, 0, 0, 1, "hi".toList, 0, 0, 0⟩] : List Segment).map segObs
        = ([⟨7, 3, 0, 1, "hi".toList, 1, 2, 3⟩] : List Segment).map segObs) ∧
    assemble [⟨0, 0, 0, 1, "hi".toList, 0, 0, 0⟩]
      = assemble [⟨7, 3, 0, 1, "hi".toList, 1, 2, 3⟩] :=
  ⟨⟨by simp, by simp [wellOrdered], by simp [wellOrdered], by simp [segObs]⟩,
    assemble_depends_only_on_obs _ _ (by simp) (by simp [wellOrdered])
      (by simp [wellOrdered]) (by simp [segObs])⟩

theorem foldl_audio_callback (frames : List (List ℚ)) :
    ∀ acc : List (List ℚ),
      frames.foldl audio_callback ⟨true, acc⟩ = ⟨true, acc ++ frames⟩ := by
  induction frames with
  | nil => intro acc; simp
  | cons f t ih =>
    intro acc
    rw [List.foldl_cons]
    have h : audio_callback ⟨true, acc⟩ f = ⟨true, acc ++ [f]⟩ := by
      simp [audio_callback]
    rw [h, ih]
    simp

/-- Claim C2: draining after zero pushed frames fails with the
no-audio-captured error; after at least one pushed frame it returns the
frames concatenated in push order, whose sample count is the sum of the
frames' sample counts. -/
theorem drain_after_pushes (frames : List (List ℚ)) :
    (frames = [] →
      drain (frames.foldl audio_callback ⟨true, []⟩)
        = Except.error RecError.noAudioCaptured) ∧
    (frames ≠ [] →
      drain (frames.foldl audio_callback ⟨true, []⟩)
          = Except.ok frames.flatten ∧
        frames.flatten.length = (frames.map List.length).sum) := by
  constructor
  · intro h; subst h; rfl
  · intro h
    rw [foldl_audio_callback frames [], List.nil_append]
    refine ⟨?_, ?_⟩
    · unfold drain
      rw [if_neg (by simpa [List.length_eq_zero] using h)]
    · simp [List.length_flatten]

/-- Claim C2 witness: pushing a one-sample frame then a two-sample frame and
draining yields the three samples in order. -/
theorem drain_after_pushes_witness :
    ([[(1 : ℚ)], [2, 3]] : List (List ℚ)) ≠ [] ∧
    (drain (([[(1 : ℚ)], [2, 3]] : List (List ℚ)).foldl audio_callback
          ⟨true, []⟩)
        = Except.ok ([[(1 : ℚ)], [2, 3]] : List (List ℚ)).flatten ∧
      ([[(1 : ℚ)], [2, 3]] : List (List ℚ)).flatten.length
        = (([[(1 : ℚ)], [2, 3]] : List (List ℚ)).map List.length).sum) :=
  ⟨by simp, (drain_after_pushes [[(1 : ℚ)], [2, 3]]).2 (by simp)⟩

/-- Claim C9: requesting stop is idempotent — two applications of the stop
signal handler equal one on the recording state, and when stop has already
been requested the handler leaves the state unchanged (and, being a total
function, cannot crash). -/
theorem stop_idempotent (st : RecState) :
    signal_handler (signal_handler st) = signal_handler st ∧
    (st.is_recording = false → signal_handler st = st) := by
  constructor
  · rfl
  · intro h
    cases st
    simp_all [signal_handler]

/-- Claim C9 witness: on a stopped state with an empty buffer the handler is
idempotent and a no-op. -/
theorem stop_idempotent_witness :
    (RecState.mk false []).is_recording = false ∧
    (signal_handler (signal_handler ⟨false, []⟩) = signal_handler ⟨false, []⟩ ∧
      signal_handler ⟨false, []⟩ = (⟨false, []⟩ : RecState)) :=
  ⟨rfl, (stop_idempotent ⟨false, []⟩).1, (stop_idempotent ⟨false, []⟩).2 rfl⟩

/-- Claim C10: a frame delivered to the audio callback while the recording
flag is false leaves the capture state — in particular the frame buffer —
unchanged: the frame is silently discarded. -/
theorem callback_discards_when_not_recording (st : RecState)
    (indata : List ℚ) (h : st.is_recording = false) :
    audio_callback st indata = st := by
  simp [audio_callback, h]

/-- Claim C10 witness: a frame arriving on a stopped state with one buffered
frame is discarded. -/
theorem callback_discards_when_not_recording_witness :
    (RecState.mk false [[1]]).is_recording = false ∧
    audio_callback ⟨false, [[1]]⟩ [2] = (⟨false, [[1]]⟩ : RecState) :=
  ⟨rfl, callback_discards_when_not_recording ⟨false, [[1]]⟩ [2] rfl⟩

/-- Claim C3 counterexample: with the credential absent and a 26 MB input,
the Remote-API variant fails with the missing-credential error — not the
payload-too-large error the claim demands — because the credential check
precedes the size check (the transport is still not invoked). -/
theorem oversize_without_credential_not_payload_error :
    transcribe_audio_openai none (26 * 1024 * 1024) (Except.ok ⟨[]⟩)
        = (Except.error TransError.missingCredential, false) ∧
      (Except.error TransError.missingCredential
          : Except TransError (List Char))
        ≠ Except.error TransError.payloadTooLarge :=
  ⟨rfl, by simp⟩

/-- Claim C3 (amended): for every input whose byte size exceeds 25 MB the
transport capability is never invoked, and — provided a non-falsy credential
is present — the failure is the payload-too-large error. -/
theorem oversize_fails_before_transport (api_key : Option (List Char))
    (size_bytes : ℕ) (transport : Except Unit ApiResponse)
    (hsize : 25 * 1024 * 1024 < size_bytes) :
    (keyMissing api_key = false →
      transcribe_audio_openai api_key size_bytes transport
        = (Except.error TransError.payloadTooLarge, false)) ∧
    (transcribe_audio_openai api_key size_bytes transport).2 = false := by
  have hq : ((size_bytes : ℚ) / (1024 * 1024)) > 25 := by
    rw [gt_iff_lt, lt_div_iff₀ (by norm_num : (0 : ℚ) < 1024 * 1024)]
    calc (25 : ℚ) * (1024 * 1024) = ((25 * 1024 * 1024 : ℕ) : ℚ) := by
          push_cast; ring
      _ < (size_bytes : ℚ) := by exact_mod_cast hsize
  constructor
  · intro hk
    simp [transcribe_audio_openai, hk, hq]
  · by_cases hk : keyMissing api_key
    · simp [transcribe_audio_openai, hk]
    · simp [transcribe_audio_openai, hk, hq]

/-- Claim C3 witness: with a one-character credential and an input one byte
over the ceiling, the call fails with the payload-too-large error and the
transport is not invoked. -/
theorem oversize_fails_before_transport_witness :
    (25 * 1024 * 1024 < 25 * 1024 * 1024 + 1) ∧
    keyMissing (some ['k']) = false ∧
    transcribe_audio_openai (some ['k']) (25 * 1024 * 1024 + 1)
        (Except.ok ⟨[]⟩)
      = (Except.error TransError.payloadTooLarge, false) ∧
    (transcribe_audio_openai (some ['k']) (25 * 1024 * 1024 + 1)
        (Except.ok ⟨[]⟩)).2 = false :=
  ⟨by norm_num, rfl,
    (oversize_fails_before_transport (some ['k']) (25 * 1024 * 1024 + 1)
        (Except.ok ⟨[]⟩) (by norm_num)).1 rfl,
    (oversize_fails_before_transport (some ['k']) (25 * 1024 * 1024 + 1)
        (Except.ok ⟨[]⟩) (by norm_num)).2⟩

/-- Claim C4: dispatching in Remote-API mode with a missing (falsy)
credential fails with the missing-credential error, invokes no transport,
and never invokes the Local-Model variant as a fallback. -/
theorem missing_credential_no_local_fallback (api_key : Option (List Char))
    (size_bytes : ℕ) (transport : Except Unit ApiResponse)
    (model_segments : List Segment) (hk : keyMissing api_key = true) :
    do_transcription "openai" api_key size_bytes transport model_segments
      = (Except.error TransError.missingCredential, false, false) := by
  simp [do_transcription, transcribe_audio_openai, hk]

/-- Claim C4 witness: with the credential unset, Remote-API dispatch fails
with the missing-credential error and touches neither backend capability. -/
theorem missing_credential_no_local_fallback_witness :
    keyMissing none = true ∧
    do_transcription "openai" none 0 (Except.ok ⟨[]⟩) []
      = (Except.error TransError.missingCredential, false, false) :=
  ⟨rfl, missing_credential_no_local_fallback none 0 (Except.ok ⟨[]⟩) [] rfl⟩

end Voicenote
